import Mathlib

/-!
Verification of the scheduletools repository (grid-to-entries schedule
parsing engine, CSV splitter, column expander) against its natural-language
specification.  The Python sources are shallowly embedded below: cells of
the tab-delimited grid are modelled as Option String (none is a missing
cell, i.e. NaN after loading), pandas DataFrames of schedule entries are
modelled as lists of a ScheduleEntry structure, and the pandas stable
lexicographic sort is modelled with List.insertionSort (any stable sort by
a total preorder computes the same list).  All string operations are
implemented structurally over the underlying character lists so that every
definition evaluates inside the kernel.  The embedding fixes the two
strftime format patterns to the built-in defaults of the source
(Date "%m/%d/%Y", Time "%I:%M %p"); the remaining configuration fields
(Omit, Replacement, Skip, Separator) are carried explicitly, matching
ScheduleParser.DEFAULT_CONFIG.  Text is assumed ASCII, which covers the
behaviour of str.lower and str.strip exercised by the source.
-/

namespace ScheduleTools

/-! ### Character-list string primitives

Structural implementations of the Python string operations used by the
source: str.strip, str.lower, substring membership, str.split on a
separator string, and digit parsing.  They operate on List Char and are
wrapped to String at the interface.
-/

/-- Whitespace test matching the characters str.strip removes for the
ASCII inputs handled by the source. -/
def isWs (c : Char) : Bool :=
  c == ' ' || c == '\t' || c == '\n' || c == '\r'

/-- Python str.strip on a character list. -/
def trimL (l : List Char) : List Char :=
  ((l.dropWhile isWs).reverse.dropWhile isWs).reverse

/-- Python str.lower for ASCII characters. -/
def lowerChar (c : Char) : Char :=
  if 65 ≤ c.toNat ∧ c.toNat ≤ 90 then Char.ofNat (c.toNat + 32) else c

/-- Python str.lower on a character list. -/
def lowerL (l : List Char) : List Char :=
  l.map lowerChar

/-- Tests whether pat occurs at the head of l. -/
def isPrefixL : List Char → List Char → Bool
  | [], _ => true
  | _ :: _, [] => false
  | a :: as, b :: bs => a == b && isPrefixL as bs

/-- Python substring membership (pat in s) for a non-empty pattern. -/
def containsL (l pat : List Char) : Bool :=
  match l with
  | [] => isPrefixL pat []
  | _ :: rest => isPrefixL pat l || containsL rest pat

/-- One step of Python str.split: fuel-indexed so the recursion is
structural; fuel at least the length of the input is always sufficient. -/
def splitOnFuel (sep : List Char) : Nat → List Char → List Char → List (List Char)
  | _, acc, [] => [acc.reverse]
  | 0, acc, rest => [acc.reverse ++ rest]
  | fuel + 1, acc, c :: rest =>
    if isPrefixL sep (c :: rest) then
      acc.reverse :: splitOnFuel sep fuel [] ((c :: rest).drop sep.length)
    else
      splitOnFuel sep fuel (c :: acc) rest

/-- Python str.split(sep) for a non-empty separator sep. -/
def splitL (sep l : List Char) : List (List Char) :=
  splitOnFuel sep (l.length + 1) [] l

/-- String wrappers over the character-list primitives. -/
def trimS (s : String) : String := ⟨trimL s.data⟩

/-- Python str.lower on a String. -/
def lowerS (s : String) : String := ⟨lowerL s.data⟩

/-- Python substring membership on Strings. -/
def containsS (s pat : String) : Bool := containsL s.data pat.data

/-- Python str.split(sep) on Strings. -/
def splitS (s sep : String) : List String :=
  (splitL sep.data s.data).map (fun l => ⟨l⟩)

/-- Value of a list of decimal digit characters. -/
def digitsVal (l : List Char) : Nat :=
  l.foldl (fun acc c => acc * 10 + (c.toNat - 48)) 0

/-- Parses a non-empty all-digit string to a number. -/
def parseNatL (l : List Char) : Option Nat :=
  if l ≠ [] ∧ l.all Char.isDigit then some (digitsVal l) else none

/-- Zero-pads a number to two digits, as the %02 format directive does. -/
def pad2 (n : Nat) : String :=
  if n < 10 then "0" ++ Nat.repr n else Nat.repr n

/-- Zero-pads a number to four digits (strftime %Y for the years handled
by the source, which are all four-digit). -/
def pad4 (n : Nat) : String :=
  if n < 10 then "000" ++ Nat.repr n
  else if n < 100 then "00" ++ Nat.repr n
  else if n < 1000 then "0" ++ Nat.repr n
  else Nat.repr n

/-! ### Calendar arithmetic

Dates are triples (year, month, day).  daysFromCivil is the standard
civil-from-days algorithm giving the day count relative to 1970-01-01,
matching the exact day differences pandas Timestamp subtraction produces.
-/

/-- Gregorian leap-year test. -/
def isLeap (y : Nat) : Bool :=
  (y % 4 == 0 && y % 100 != 0) || y % 400 == 0

/-- Number of days in a month, used by strptime to validate the day. -/
def daysInMonth (y m : Nat) : Nat :=
  if m == 2 then (if isLeap y then 29 else 28)
  else if m == 4 || m == 6 || m == 9 || m == 11 then 30
  else 31

/-- Day count of a civil date relative to 1970-01-01. -/
def daysFromCivil (y m d : Nat) : Int :=
  let y' : Int := if m ≤ 2 then (y : Int) - 1 else (y : Int)
  let era : Int := y' / 400
  let yoe : Int := y' - era * 400
  let mp : Int := if m > 2 then (m : Int) - 3 else (m : Int) + 9
  let doy : Int := (153 * mp + 2) / 5 + (d : Int) - 1
  let doe : Int := yoe * 365 + yoe / 4 - yoe / 100 + doy
  era * 146097 + doe - 719468

/-- Weekday name of a day count (1970-01-01 was a Thursday), as produced
by strftime %A. -/
def weekdayName (e : Int) : String :=
  ["Thursday", "Friday", "Saturday", "Sunday", "Monday", "Tuesday",
    "Wednesday"].getD (e.emod 7).toNat ""

/-! ### Time-of-day parsing (strptime patterns "%I %p" and "%I:%M %p")

A parsed time is its number of minutes since midnight.  The strptime
directive %I accepts a one- or two-digit hour from 1 to 12, %M a one- or
two-digit minute from 0 to 59, %p the meridiem token, and a space in the
format string matches one or more whitespace characters; the whole input
must be consumed.  The source lower-cases the input before parsing, so the
meridiem comparison here is against the lowercase tokens.
-/

/-- Checks a digit run against the strptime %I directive (hour 1..12 in
one or two digits). -/
def hour12Val (ds : List Char) : Option Nat :=
  match parseNatL ds with
  | some v =>
    if (ds.length = 1 ∨ ds.length = 2) ∧ 1 ≤ v ∧ v ≤ 12 then some v else none
  | none => none

/-- Checks a digit run against the strptime %M directive (minute 0..59 in
one or two digits). -/
def minuteVal (ds : List Char) : Option Nat :=
  match parseNatL ds with
  | some v =>
    if (ds.length = 1 ∨ ds.length = 2) ∧ v ≤ 59 then some v else none
  | none => none

/-- Minutes since midnight of a 12-hour clock reading. -/
def clockMinutes (h12 minute : Nat) (pm : Bool) : Nat :=
  (h12 % 12 + (if pm then 12 else 0)) * 60 + minute

/-- Consumes the tail of a time string after the digits: one or more
whitespace characters followed by the meridiem token, then end of input.
Returns whether the meridiem is pm. -/
def meridiemTail (l : List Char) : Option Bool :=
  let ws := l.takeWhile isWs
  let tok := l.dropWhile isWs
  if ws = [] then none
  else if tok = ['a', 'm'] then some false
  else if tok = ['p', 'm'] then some true
  else none

/-- strptime with format "%I %p" on a lower-cased string, returning
minutes since midnight. -/
def parseBareHour (s : String) : Option Nat :=
  let l := s.data
  let ds := l.takeWhile Char.isDigit
  match hour12Val ds with
  | none => none
  | some h =>
    match meridiemTail (l.drop ds.length) with
    | none => none
    | some pm => some (clockMinutes h 0 pm)

/-- strptime with format "%I:%M %p" on a lower-cased string, returning
minutes since midnight. -/
def parseHourMinute (s : String) : Option Nat :=
  let l := s.data
  let ds := l.takeWhile Char.isDigit
  match hour12Val ds with
  | none => none
  | some h =>
    match l.drop ds.length with
    | ':' :: rest =>
      let ms := rest.takeWhile Char.isDigit
      match minuteVal ms with
      | none => none
      | some minute =>
        match meridiemTail (rest.drop ms.length) with
        | none => none
        | some pm => some (clockMinutes h minute pm)
    | _ => none

/-- Tries the two time patterns in the fixed order of the source
(time_format_attempts): bare hour with meridiem first, then
hour:minute with meridiem; the first pattern that parses wins. -/
def parseHalf (s : String) : Option Nat :=
  match parseBareHour s with
  | some t => some t
  | none => parseHourMinute s

/-- Formats minutes since midnight with the default configured time
pattern "%I:%M %p". -/
def formatTime12 (m : Nat) : String :=
  let h := m / 60
  let h12 := if h % 12 = 0 then 12 else h % 12
  pad2 h12 ++ ":" ++ pad2 (m % 60) ++ " " ++ (if h < 12 then "AM" else "PM")

/-- Python str.lstrip("0"): removes every leading zero character. -/
def lstripZeros (s : String) : String :=
  ⟨s.data.dropWhile (· == '0')⟩

/-- Formats a duration in minutes as H:MM, hours unbounded and minutes
zero-padded to two digits, as the f-string in the source does. -/
def durFmt (d : Nat) : String :=
  Nat.repr (d / 60) ++ ":" ++ pad2 (d % 60)

/-- Start-time and duration strings of a parsed interval: if the end is
strictly before the start, a day (1440 minutes) is added to the end
before the duration is taken; the start is formatted with the configured
time pattern and its leading zeros stripped. -/
def mkInterval (st en : Nat) : String × String :=
  let en' := if en < st then en + 1440 else en
  (lstripZeros (formatTime12 st), durFmt (en' - st))

/-- Embedding of ScheduleParser._parse_time_and_duration: trims the cell,
rejects label or separator-free cells, lower-cases and splits on the dash,
parses both halves with the ordered pattern list, and renders the
start time and duration. -/
def parse_time_and_duration (interval : String) : Option String × Option String :=
  let t := trimS interval
  if containsS t "Time" || t == "" || !containsS t "-" then (none, none)
  else
    match splitS (lowerS t) "-" with
    | [a, b] =>
      match parseHalf (trimS a), parseHalf (trimS b) with
      | some st, some en =>
        let p := mkInterval st en
        (some p.1, some p.2)
      | _, _ => (none, none)
    | _ => (none, none)

/-! ### Date parsing (strptime pattern "%m/%d/%Y") and schedule entries -/

/-- strptime with format "%m/%d/%Y": month 1..12 and day 1..31 in one or
two digits, a four-digit year of at least 1, with the day validated
against the length of the month as the datetime constructor does. -/
def parseDateMDY (s : String) : Option (Nat × Nat × Nat) :=
  match splitS s "/" with
  | [ms, ds, ys] =>
    match parseNatL ms.data, parseNatL ds.data, parseNatL ys.data with
    | some m, some d, some y =>
      if (ms.data.length = 1 ∨ ms.data.length = 2) ∧ 1 ≤ m ∧ m ≤ 12 ∧
          (ds.data.length = 1 ∨ ds.data.length = 2) ∧ 1 ≤ d ∧
          ys.data.length = 4 ∧ 1 ≤ y ∧ d ≤ daysInMonth y m then
        some (y, m, d)
      else none
    | _, _, _ => none
  | _ => none

/-- strftime with format "%m/%d/%Y". -/
def formatDateMDY (y m d : Nat) : String :=
  pad2 m ++ "/" ++ pad2 d ++ "/" ++ pad4 y

/-- The configuration fields of ScheduleParser.DEFAULT_CONFIG that the
engine consults, with the two format patterns fixed to their defaults. -/
structure Config where
  omitMissing : Bool
  replacement : String
  skipSplit : Bool
  separator : String
deriving Repr, DecidableEq

/-- The built-in default configuration of the source. -/
def defaultConfig : Config :=
  { omitMissing := true, replacement := "missing", skipSplit := false, separator := "/" }

/-- A reference date as a (year, month, day) triple; the source parses it
from an ISO string with pandas to_datetime. -/
abbrev RefDate := Nat × Nat × Nat

/-- One normalized output row of the engine, before the Index column is
attached. -/
structure ScheduleEntry where
  week : Int
  day : String
  date : String
  startTime : String
  duration : String
  team : String
deriving Repr, DecidableEq

/-- Builds one entry exactly as the row dictionary in _parse_block does:
Week is the floor division by 7 of the day difference to the reference
date, Day the weekday name, Date the reformatted date. -/
def mkEntry (ref : RefDate) (y m d : Nat) (st dur team : String) : ScheduleEntry :=
  { week := Int.fdiv (daysFromCivil y m d - daysFromCivil ref.1 ref.2.1 ref.2.2) 7
    day := weekdayName (daysFromCivil y m d)
    date := formatDateMDY y m d
    startTime := st
    duration := dur
    team := team }

/-- A grid cell: none models a missing value (NaN). -/
abbrev Cell := Option String

/-- A raw grid, as loaded from the tab-delimited file: a list of rows of
cells. -/
abbrev Grid := List (List Cell)

/-- Splits a participant cell into team tokens as _parse_block does: an
empty trimmed cell is omitted or replaced per the missing-value policy;
otherwise the text is either kept whole (skip-split) or split on the
separator into trimmed non-empty tokens. -/
def teamTokens (cfg : Config) (teamCell : Cell) : List String :=
  let teamStr := match teamCell with
    | none => ""
    | some t => trimS t
  if teamStr = "" then
    (if cfg.omitMissing then [] else [cfg.replacement])
  else if cfg.skipSplit then [teamStr]
  else ((splitS teamStr cfg.separator).map trimS).filter (fun t => t ≠ "")

/-- Embedding of the per-row body of the column loop in _parse_block:
skips a missing date cell, a date cell containing "ice" after
lower-casing, and a date cell the date pattern rejects; resolves the
participant cell and emits one entry per team token. -/
def parseCell (cfg : Config) (ref : RefDate) (st dur : String)
    (dateCell teamCell : Cell) : List ScheduleEntry :=
  match dateCell with
  | none => []
  | some ds =>
    if containsS (lowerS ds) "ice" then []
    else
      match parseDateMDY ds with
      | none => []
      | some (y, m, d) =>
        (teamTokens cfg teamCell).map (mkEntry ref y m d st dur)

/-- Structural concatMap, used to model the nested loops of the source. -/
def flatMapL (f : α → List β) : List α → List β
  | [] => []
  | x :: xs => f x ++ flatMapL f xs

/-- Embedding of the per-column body of _parse_block: a missing interval
cell, an unparseable interval, and (per the Python truthiness test) an
empty rendered start time or duration skip the whole column; otherwise
each (date cell, participant cell) pair of the column is processed. -/
def parseColumn (cfg : Config) (ref : RefDate) (intervalCell : Cell)
    (pairs : List (Cell × Cell)) : List ScheduleEntry :=
  match intervalCell with
  | none => []
  | some s =>
    match parse_time_and_duration s with
    | (some st, some dur) =>
      if st = "" ∨ dur = "" then []
      else flatMapL (fun p => parseCell cfg ref st dur p.1 p.2) pairs
    | _ => []

/-- The cells of one column of a block, padding ragged rows with missing
cells as the loader does. -/
def colCells (rows : Grid) (c : Nat) : List Cell :=
  rows.map (fun r => r.getD c none)

/-- Embedding of ScheduleParser._parse_block: the first column carries the
dates from row 3 on, and every later column of the block is walked with
its row-2 interval cell. -/
def parse_block (cfg : Config) (ref : RefDate) (rows : Grid) (ncols : Nat) :
    List ScheduleEntry :=
  let dates := (colCells rows 0).drop 3
  flatMapL
    (fun c => parseColumn cfg ref ((rows.getD 2 []).getD c none)
      (dates.zip ((colCells rows c).drop 3)))
    ((List.range ncols).drop 1)

/-! ### Block segmentation and the merged, sorted result -/

/-- Width of the loaded grid (pandas pads ragged rows to the widest). -/
def gridWidth (g : Grid) : Nat :=
  (g.map List.length).foldr max 0

/-- Embedding of the marker scan of parse_schedule: the column indices of
row 1 whose cell is a string equal to "date" after trimming and
lower-casing. -/
def dateColumns (g : Grid) : List Nat :=
  (List.range (gridWidth g)).filter
    (fun c =>
      match (g.getD 1 []).getD c none with
      | some v => lowerS (trimS v) == "date"
      | none => false)

/-- The half-open column ranges of the blocks: each marker column up to
the next marker column, the last one up to the grid width. -/
def blockRanges (cols : List Nat) (width : Nat) : List (Nat × Nat) :=
  match cols with
  | [] => []
  | [c] => [(c, width)]
  | c :: c2 :: rest => (c, c2) :: blockRanges (c2 :: rest) width

/-- The column slice of the grid between lo (inclusive) and hi
(exclusive), rectangular with missing cells as padding. -/
def sliceCols (g : Grid) (lo hi : Nat) : Grid :=
  g.map (fun row => (List.range (hi - lo)).map (fun j => row.getD (lo + j) none))

/-- Embedding of the row mask of parse_schedule: the first three rows are
always kept, and every later row is kept exactly when its leading (date)
cell is present. -/
def applyMask (rows : Grid) : Grid :=
  rows.take 3 ++ (rows.drop 3).filter (fun row => (row.getD 0 none).isSome)

/-- The entries of all blocks in block order, before the final sort;
models the concatenation of the per-block frames. -/
def collectEntries (cfg : Config) (ref : RefDate) (g : Grid) : List ScheduleEntry :=
  flatMapL
    (fun r => parse_block cfg ref (applyMask (sliceCols g r.1 r.2)) (r.2 - r.1))
    (blockRanges (dateColumns g) (gridWidth g))

/-- The Date sort key of an entry: the day count of its display string
reparsed with the date pattern, as the to_datetime call before the sort
does (formatted dates always reparse; 0 is an unreachable fallback). -/
def dateKey (e : ScheduleEntry) : Int :=
  match parseDateMDY e.date with
  | some (y, m, d) => daysFromCivil y m d
  | none => 0

/-- Lexicographic comparison of character lists by code point, the
comparison Python applies to strings. -/
def charListLe : List Char → List Char → Bool
  | [], _ => true
  | _ :: _, [] => false
  | a :: as, b :: bs =>
    if a.toNat < b.toNat then true
    else if b.toNat < a.toNat then false
    else charListLe as bs

/-- Python string comparison on Strings. -/
def strLe (a b : String) : Bool := charListLe a.data b.data

/-- The sort relation of the final sort_values call: by the reparsed Date
value first, then by the Start Time display string. -/
def entryLe (a b : ScheduleEntry) : Prop :=
  dateKey a < dateKey b ∨ (dateKey a = dateKey b ∧ strLe a.startTime b.startTime = true)

instance : DecidableRel entryLe := fun _ _ =>
  inferInstanceAs (Decidable (_ ∨ _))

/-- Embedding of ScheduleParser.parse_schedule: segments the grid at the
marker columns, masks empty-date rows, extracts every block, stably sorts
the concatenated entries by (Date, Start Time) and attaches the dense
zero-based Index. -/
def parse_schedule (cfg : Config) (ref : RefDate) (g : Grid) :
    List (Nat × ScheduleEntry) :=
  let sorted := (collectEntries cfg ref g).insertionSort entryLe
  (List.range sorted.length).zip sorted

/-! ### Configuration resolution (ScheduleParser.__init__)

The filesystem is modelled as a partial map from paths to parsed config
contents.  The source opens an explicitly given path unconditionally (a
missing explicit path raises), and only consults the sibling
parser_config.json, then the built-in default, when no explicit path was
given; the Python truthiness test also treats an empty path string as
absent.
-/

/-- Embedding of the configuration resolution in ScheduleParser.__init__
over a filesystem map fs. -/
def resolveConfig (fs : String → Option α) (dflt : α)
    (configPath : Option String) (siblingPath : String) : Except String α :=
  match configPath with
  | some p =>
    if p = "" then
      match fs siblingPath with
      | some c => .ok c
      | none => .ok dflt
    else
      match fs p with
      | some c => .ok c
      | none => .error "FileAccess"
  | none =>
    match fs siblingPath with
    | some c => .ok c
    | none => .ok dflt

/-- Modelled from the claim wording, for comparison with resolveConfig:
resolution tries explicit path, then sibling file, then the built-in
default, and the first source that exists wins, so a missing candidate
source falls through to the next one and resolution never fails. -/
def resolveConfigFirstExisting (fs : String → Option α) (dflt : α)
    (configPath : Option String) (siblingPath : String) : α :=
  match configPath with
  | some p =>
    match fs p with
    | some c => c
    | none =>
      match fs siblingPath with
      | some c => c
      | none => dflt
  | none =>
    match fs siblingPath with
    | some c => c
    | none => dflt

/-! ### Column expander (ScheduleExpander.expand_columns)

Rows are association lists from column names to values; the input table
carries its column list implicitly as the keys of each row.
-/

/-- First-match association lookup, modelling "col in columns" followed
by row[col]. -/
def lookupCol : List (String × String) → String → Option String
  | [], _ => none
  | (k, v) :: rest, c => if k = c then some v else lookupCol rest c

/-- The reverse mapping built by the dict comprehension
(reverse_mapping = {v: k for k, v in mapping.items()}): for a target
column, the last source column mapped to it. -/
def lookupRev : List (String × String) → String → Option String
  | [], _ => none
  | (src, tgt) :: rest, col =>
    match lookupRev rest col with
    | some r => some r
    | none => if tgt = col then some src else none

/-- Embedding of the per-cell priority chain of expand_columns: the
identically named input column, else the input column the Mapping sends
to this required column, else the configured default, else empty. -/
def expandValue (row : List (String × String))
    (defaults mapping : List (String × String)) (col : String) : String :=
  match lookupCol row col with
  | some v => v
  | none =>
    match lookupRev mapping col with
    | some src =>
      match lookupCol row src with
      | some v => v
      | none =>
        match lookupCol defaults col with
        | some dv => dv
        | none => ""
    | none =>
      match lookupCol defaults col with
      | some dv => dv
      | none => ""

/-- Embedding of ScheduleExpander.expand_columns: one output row per
input row, one cell per required column. -/
def expand_columns (required : List String)
    (defaults mapping : List (String × String))
    (rows : List (List (String × String))) : List (List (String × String)) :=
  rows.map (fun row => required.map (fun col => (col, expandValue row defaults mapping col)))

/-! ### CSV splitter (CSVSplitter._should_include and split_and_export)

A group key is the list of its string components (one per group-by
column).  The include and exclude filters are optional lists; the Python
truthiness test skips a check when its list is None (and would also skip
an empty list, a state the constructor never produces).
-/

/-- Python truthiness of the optional filter lists. -/
def truthyFilter (o : Option (List String)) : Bool :=
  match o with
  | none => false
  | some l => !l.isEmpty

/-- Embedding of CSVSplitter._should_include. -/
def should_include (includeV excludeV : Option (List String))
    (keys : List String) : Bool :=
  if truthyFilter includeV && !(keys.any (fun k => (includeV.getD []).contains k)) then
    false
  else if truthyFilter excludeV && keys.any (fun k => (excludeV.getD []).contains k) then
    false
  else true

/-- Embedding of the filtering step of split_and_export: a group is
exported exactly when _should_include accepts its key. -/
def exportedGroups (includeV excludeV : Option (List String))
    (groups : List (List String × α)) : List (List String × α) :=
  groups.filter (fun g => should_include includeV excludeV g.1)

/-! ### Order properties of the sort relation -/

theorem charListLe_total : ∀ a b : List Char, charListLe a b = true ∨ charListLe b a = true
  | [], _ => Or.inl rfl
  | _ :: _, [] => Or.inr rfl
  | a :: as, b :: bs => by
    rcases Nat.lt_trichotomy a.toNat b.toNat with h | h | h
    · left
      simp [charListLe, h]
    · have h1 : ¬ a.toNat < b.toNat := by omega
      have h2 : ¬ b.toNat < a.toNat := by omega
      rcases charListLe_total as bs with ih | ih
      · left
        simp [charListLe, h1, h2, ih]
      · right
        simp [charListLe, h1, h2, ih]
    · right
      simp [charListLe, h]

theorem charListLe_trans :
    ∀ a b c : List Char, charListLe a b = true → charListLe b c = true →
      charListLe a c = true
  | [], _, _, _, _ => rfl
  | _ :: _, [], _, hab, _ => by simp [charListLe] at hab
  | _ :: _, _ :: _, [], _, hbc => by simp [charListLe] at hbc
  | a :: as, b :: bs, c :: cs, hab, hbc => by
    by_cases h1 : a.toNat < b.toNat <;> by_cases h2 : b.toNat < c.toNat
    · have : a.toNat < c.toNat := Nat.lt_trans h1 h2
      simp [charListLe, this]
    · have h3 : ¬ c.toNat < b.toNat := by
        intro hc
        simp [charListLe, h2, hc] at hbc
      have hac : a.toNat < c.toNat := by omega
      simp [charListLe, hac]
    · have h3 : ¬ b.toNat < a.toNat := by
        intro hc
        simp [charListLe, h1, hc] at hab
      have hac : a.toNat < c.toNat := by omega
      simp [charListLe, hac]
    · have h3 : ¬ b.toNat < a.toNat := by
        intro hc
        simp [charListLe, h1, hc] at hab
      have h4 : ¬ c.toNat < b.toNat := by
        intro hc
        simp [charListLe, h2, hc] at hbc
      have hab' : charListLe as bs = true := by
        simpa [charListLe, h1, h3] using hab
      have hbc' : charListLe bs cs = true := by
        simpa [charListLe, h2, h4] using hbc
      have h5 : ¬ a.toNat < c.toNat ∨ a.toNat < c.toNat := (em _).symm.imp id id
      have heq : a.toNat = b.toNat := by omega
      have heq2 : b.toNat = c.toNat := by omega
      have h6 : ¬ a.toNat < c.toNat := by omega
      have h7 : ¬ c.toNat < a.toNat := by omega
      simp [charListLe, h6, h7, charListLe_trans as bs cs hab' hbc']

instance : IsTotal ScheduleEntry entryLe := by
  constructor
  intro a b
  rcases Int.lt_trichotomy (dateKey a) (dateKey b) with h | h | h
  · exact Or.inl (Or.inl h)
  · rcases charListLe_total a.startTime.data b.startTime.data with hs | hs
    · exact Or.inl (Or.inr ⟨h, hs⟩)
    · exact Or.inr (Or.inr ⟨h.symm, hs⟩)
  · exact Or.inr (Or.inl h)

instance : IsTrans ScheduleEntry entryLe := by
  constructor
  intro a b c hab hbc
  rcases hab with h1 | ⟨h1, hs1⟩
  · rcases hbc with h2 | ⟨h2, _⟩
    · exact Or.inl (lt_trans h1 h2)
    · exact Or.inl (h2 ▸ h1)
  · rcases hbc with h2 | ⟨h2, hs2⟩
    · exact Or.inl (h1 ▸ h2)
    · exact Or.inr ⟨h1.trans h2,
        charListLe_trans a.startTime.data b.startTime.data c.startTime.data hs1 hs2⟩

/-! ### Helper lemmas about the extraction walk -/

theorem flatMapL_append (f : α → List β) :
    ∀ l1 l2 : List α, flatMapL f (l1 ++ l2) = flatMapL f l1 ++ flatMapL f l2
  | [], _ => rfl
  | x :: xs, l2 => by
    simp [flatMapL, flatMapL_append f xs l2, List.append_assoc]

/-- A pair whose extraction is empty can be removed from a column walk. -/
theorem flatMapL_drop_empty (f : α → List β) (x : α) (hx : f x = [])
    (l1 l2 : List α) : flatMapL f (l1 ++ x :: l2) = flatMapL f (l1 ++ l2) := by
  rw [flatMapL_append, flatMapL_append]
  simp [flatMapL, hx]

/-- The date and team cells of the data rows of a block column, expressed
as a single map over the data rows. -/
theorem pairs_eq_map (data : Grid) (c : Nat) (r0 r1 r2 : List Cell) :
    (((colCells (r0 :: r1 :: r2 :: data) 0).drop 3).zip
      ((colCells (r0 :: r1 :: r2 :: data) c).drop 3)) =
      data.map (fun row => (row.getD 0 none, row.getD c none)) := by
  simp [colCells, List.zip_map']

theorem flatMapL_congr (f g : α → List β) :
    ∀ l : List α, (∀ x ∈ l, f x = g x) → flatMapL f l = flatMapL g l
  | [], _ => rfl
  | x :: xs, h => by
    simp only [flatMapL, h x (List.mem_cons_self x xs)]
    rw [flatMapL_congr f g xs (fun y hy => h y (List.mem_cons_of_mem x hy))]

/-- A pair every cell extraction rejects can be removed from a column
walk without changing its entries. -/
theorem parseColumn_append_skip (cfg : Config) (ref : RefDate) (ic : Cell)
    (pre post : List (Cell × Cell)) (p : Cell × Cell)
    (hp : ∀ st dur, parseCell cfg ref st dur p.1 p.2 = []) :
    parseColumn cfg ref ic (pre ++ p :: post) = parseColumn cfg ref ic (pre ++ post) := by
  cases ic with
  | none => rfl
  | some s =>
    rcases hpd : parse_time_and_duration s with ⟨o1, o2⟩
    simp only [parseColumn, hpd]
    cases o1 with
    | none => rfl
    | some st =>
      cases o2 with
      | none => rfl
      | some dur =>
        dsimp only
        by_cases hz : st = "" ∨ dur = ""
        · simp [hz]
        · rw [if_neg hz, if_neg hz]
          exact flatMapL_drop_empty (fun q => parseCell cfg ref st dur q.1 q.2)
            p (hp st dur) pre post

/-! ### Claim theorems -/

/-- C3: the interval parser returns (none, none) whenever the trimmed
string is empty, has no dash, contains the substring "Time", or either
half fails every pattern; otherwise each half is parsed by trying the
bare-hour pattern first and the hour:minute pattern second, the first
success winning in that fixed order. -/
theorem interval_reject_and_pattern_order (s : String) :
    ((trimS s = "" ∨ containsS (trimS s) "Time" = true ∨
        containsS (trimS s) "-" = false) →
      parse_time_and_duration s = (none, none)) ∧
    (∀ a b, splitS (lowerS (trimS s)) "-" = [a, b] →
      (parseHalf (trimS a) = none ∨ parseHalf (trimS b) = none) →
      parse_time_and_duration s = (none, none)) ∧
    (∀ u : String, (parseBareHour u).isSome = true → parseHalf u = parseBareHour u) ∧
    (∀ u : String, parseBareHour u = none → parseHalf u = parseHourMinute u) := by
  refine ⟨?_, ?_, ?_, ?_⟩
  · intro h
    rcases h with h | h | h
    · simp [parse_time_and_duration, h]
    · simp [parse_time_and_duration, h]
    · simp [parse_time_and_duration, h]
  · intro a b hsplit hfail
    unfold parse_time_and_duration
    by_cases hc : (containsS (trimS s) "Time" || trimS s == "" || !containsS (trimS s) "-") = true
    · simp [hc]
    · rw [if_neg hc, hsplit]
      rcases hfail with hf | hf
      · cases hb : parseHalf (trimS b) <;> simp [hf, hb]
      · cases ha : parseHalf (trimS a) <;> simp [hf, ha]
  · intro u h
    cases hb : parseBareHour u
    · rw [hb] at h
      simp at h
    · simp [parseHalf, hb]
  · intro u h
    simp [parseHalf, h]

/-- C3 witness: concrete rejections of a blank string, a dash-free
string, a label containing "Time", an unparseable half, and concrete
instances of the fixed pattern order. -/
theorem interval_reject_and_pattern_order_witness :
    parse_time_and_duration " " = (none, none) ∧
    parse_time_and_duration "6 pm to 7 pm" = (none, none) ∧
    parse_time_and_duration "Ice Time" = (none, none) ∧
    parse_time_and_duration "x - y" = (none, none) ∧
    parseHalf "6 pm" = parseBareHour "6 pm" ∧
    parseHalf "6:00 pm" = parseHourMinute "6:00 pm" := by
  refine ⟨?_, ?_, ?_, ?_, ?_, ?_⟩
  · exact (interval_reject_and_pattern_order " ").1 (Or.inl (by decide))
  · exact (interval_reject_and_pattern_order "6 pm to 7 pm").1
      (Or.inr (Or.inr (by decide)))
  · exact (interval_reject_and_pattern_order "Ice Time").1
      (Or.inr (Or.inl (by decide)))
  · exact (interval_reject_and_pattern_order "x - y").2.1 "x " " y" (by decide)
      (Or.inl (by decide))
  · exact (interval_reject_and_pattern_order "").2.2.1 "6 pm" (by decide)
  · exact (interval_reject_and_pattern_order "").2.2.2 "6:00 pm" (by decide)

/-- C4: when the parsed end time is strictly before the parsed start
time, 24 hours (1440 minutes) are added to the end before the duration is
taken; the duration renders as H:MM with two-digit minutes, the start
time renders with the configured pattern and leading zeros stripped, and
the interval "11 pm - 1 am" yields start "11:00 PM" and duration "2:00". -/
theorem midnight_rollover_duration_format :
    (∀ st en : Nat, en < st →
      mkInterval st en = (lstripZeros (formatTime12 st), durFmt (en + 1440 - st))) ∧
    (∀ d : Nat, durFmt d = Nat.repr (d / 60) ++ ":" ++ pad2 (d % 60)) ∧
    parse_time_and_duration "11 pm - 1 am" = (some "11:00 PM", some "2:00") := by
  refine ⟨?_, fun d => rfl, by decide⟩
  intro st en h
  simp [mkInterval, h]

/-- C4 witness: the rollover branch applied at the parsed times of
"11 pm - 1 am" (start 1380, end 60 minutes since midnight). -/
theorem midnight_rollover_duration_format_witness :
    60 < 1380 ∧
    mkInterval 1380 60 = (lstripZeros (formatTime12 1380), durFmt (60 + 1440 - 1380)) :=
  ⟨by decide, midnight_rollover_duration_format.1 1380 60 (by decide)⟩

/-- C5: every entry a cell produces carries Week equal to the floor
division by 7 of the day difference between its date and the reference
date, and with reference date 2025-09-02 the dates 09/02/2025,
08/26/2025 and 09/09/2025 produce Weeks 0, -1 and 1. -/
theorem week_floor_division :
    (∀ (cfg : Config) (ref : RefDate) (st dur ds : String) (tc : Cell)
        (y m d : Nat), parseDateMDY ds = some (y, m, d) →
      ∀ e ∈ parseCell cfg ref st dur (some ds) tc,
        e.week = Int.fdiv (daysFromCivil y m d -
          daysFromCivil ref.1 ref.2.1 ref.2.2) 7) ∧
    (parseCell defaultConfig (2025, 9, 2) "6:00 PM" "1:00" (some "09/02/2025")
        (some "A")).map ScheduleEntry.week = [0] ∧
    (parseCell defaultConfig (2025, 9, 2) "6:00 PM" "1:00" (some "08/26/2025")
        (some "A")).map ScheduleEntry.week = [-1] ∧
    (parseCell defaultConfig (2025, 9, 2) "6:00 PM" "1:00" (some "09/09/2025")
        (some "A")).map ScheduleEntry.week = [1] := by
  refine ⟨?_, by decide, by decide, by decide⟩
  intro cfg ref st dur ds tc y m d hparse e he
  by_cases hice : containsS (lowerS ds) "ice" = true
  · simp [parseCell, hice] at he
  · simp [parseCell, hice, hparse] at he
    obtain ⟨team, _, rfl⟩ := he
    rfl

/-- C5 witness: the universal Week formula applied to the concrete cell
dated 09/09/2025 against reference date 2025-09-02. -/
theorem week_floor_division_witness :
    parseDateMDY "09/09/2025" = some (2025, 9, 9) ∧
    ∀ e ∈ parseCell defaultConfig (2025, 9, 2) "6:00 PM" "1:00"
        (some "09/09/2025") (some "A"),
      e.week = Int.fdiv (daysFromCivil 2025 9 9 - daysFromCivil 2025 9 2) 7 :=
  ⟨by decide,
    week_floor_division.1 defaultConfig (2025, 9, 2) "6:00 PM" "1:00"
      "09/09/2025" (some "A") 2025 9 9 (by decide)⟩

/-- C7: with separator "/" and skip-split false a participant cell
"A / B" fans out into exactly two entries that differ only in Team (the
trimmed tokens), while with skip-split true the whole trimmed text is the
single Team token of one entry. -/
theorem participant_fanout (ref : RefDate) (st dur ds : String) (y m d : Nat)
    (hice : containsS (lowerS ds) "ice" = false)
    (hdate : parseDateMDY ds = some (y, m, d)) :
    parseCell defaultConfig ref st dur (some ds) (some "A / B") =
      [mkEntry ref y m d st dur "A", mkEntry ref y m d st dur "B"] ∧
    parseCell { defaultConfig with skipSplit := true } ref st dur (some ds)
        (some "A / B") =
      [mkEntry ref y m d st dur "A / B"] := by
  have h1 : teamTokens defaultConfig (some "A / B") = ["A", "B"] := by decide
  have h2 : teamTokens { defaultConfig with skipSplit := true } (some "A / B") =
      ["A / B"] := by decide
  constructor
  · simp [parseCell, hice, hdate, h1]
  · simp [parseCell, hice, hdate, h2]

/-- C7 witness: the fan-out at the concrete date cell 07/21/2025 with a
concrete time slot. -/
theorem participant_fanout_witness :
    parseCell defaultConfig (2025, 9, 2) "6:00 PM" "1:15" (some "07/21/2025")
        (some "A / B") =
      [mkEntry (2025, 9, 2) 2025 7 21 "6:00 PM" "1:15" "A",
        mkEntry (2025, 9, 2) 2025 7 21 "6:00 PM" "1:15" "B"] ∧
    parseCell { defaultConfig with skipSplit := true } (2025, 9, 2) "6:00 PM"
        "1:15" (some "07/21/2025") (some "A / B") =
      [mkEntry (2025, 9, 2) 2025 7 21 "6:00 PM" "1:15" "A / B"] :=
  participant_fanout (2025, 9, 2) "6:00 PM" "1:15" "07/21/2025" 2025 7 21
    (by decide) (by decide)

/-- C8 counterexample: with an empty filesystem and an explicit config
path, the source raises a FileAccess error instead of falling through to
the next candidate source, so resolution is not first-existing-wins. -/
theorem config_resolution_counterexample :
    resolveConfig (fun _ => (none : Option Nat)) 0 (some "cfg.json")
        "parser_config.json" = Except.error "FileAccess" ∧
    resolveConfigFirstExisting (fun _ => (none : Option Nat)) 0
        (some "cfg.json") "parser_config.json" = 0 ∧
    resolveConfig (fun _ => (none : Option Nat)) 0 (some "cfg.json")
        "parser_config.json" ≠
      Except.ok (resolveConfigFirstExisting (fun _ => (none : Option Nat)) 0
        (some "cfg.json") "parser_config.json") :=
  ⟨rfl, rfl, fun h => Except.noConfusion h⟩

/-- C8 amended: a non-empty explicit path always wins, resolving to its
contents when it exists and to a FileAccess error when it does not;
without an explicit path the sibling parser_config.json is used when it
exists, and otherwise the built-in default. -/
theorem config_resolution_amended (fs : String → Option α) (dflt : α)
    (p siblingPath : String) :
    (p ≠ "" → ∀ c, fs p = some c →
      resolveConfig fs dflt (some p) siblingPath = .ok c) ∧
    (p ≠ "" → fs p = none →
      resolveConfig fs dflt (some p) siblingPath = .error "FileAccess") ∧
    (∀ c, fs siblingPath = some c →
      resolveConfig fs dflt none siblingPath = .ok c) ∧
    (fs siblingPath = none → resolveConfig fs dflt none siblingPath = .ok dflt) := by
  refine ⟨?_, ?_, ?_, ?_⟩
  · intro hp c hc
    simp [resolveConfig, hp, hc]
  · intro hp hc
    simp [resolveConfig, hp, hc]
  · intro c hc
    simp [resolveConfig, hc]
  · intro hc
    simp [resolveConfig, hc]

/-- C8 witness: the amended resolution applied to a one-file filesystem,
covering the explicit-path hit, the explicit-path failure, the sibling
fallback and the default fallback. -/
theorem config_resolution_amended_witness :
    resolveConfig (fun s => if s = "a.json" then some 1 else none) 0
        (some "a.json") "parser_config.json" = .ok 1 ∧
    resolveConfig (fun s => if s = "a.json" then some 1 else none) 0
        (some "b.json") "parser_config.json" = .error "FileAccess" ∧
    resolveConfig (fun s => if s = "parser_config.json" then some 2 else none) 0
        none "parser_config.json" = .ok 2 ∧
    resolveConfig (fun _ => (none : Option Nat)) 0 none "parser_config.json" =
      .ok 0 :=
  ⟨(config_resolution_amended _ 0 "a.json" "parser_config.json").1 (by decide) 1 (by simp),
    (config_resolution_amended _ 0 "b.json" "parser_config.json").2.1 (by decide) (by simp),
    (config_resolution_amended (fun s => if s = "parser_config.json" then some 2 else none)
      0 "x" "parser_config.json").2.2.1 2 (by simp),
    (config_resolution_amended (fun _ => (none : Option Nat)) 0 "x"
      "parser_config.json").2.2.2 (by simp)⟩

/-- C9: each required column of each output row is filled by the fixed
priority chain: the identically named input column, else the input column
the Mapping sends to this required column, else the configured default,
else the empty string. -/
theorem expander_priority (row defaults mapping : List (String × String))
    (col : String) :
    (∀ v, lookupCol row col = some v →
      expandValue row defaults mapping col = v) ∧
    (lookupCol row col = none → ∀ src v, lookupRev mapping col = some src →
      lookupCol row src = some v → expandValue row defaults mapping col = v) ∧
    (lookupCol row col = none →
      (lookupRev mapping col = none ∨
        ∃ src, lookupRev mapping col = some src ∧ lookupCol row src = none) →
      ∀ dv, lookupCol defaults col = some dv →
        expandValue row defaults mapping col = dv) ∧
    (lookupCol row col = none →
      (lookupRev mapping col = none ∨
        ∃ src, lookupRev mapping col = some src ∧ lookupCol row src = none) →
      lookupCol defaults col = none → expandValue row defaults mapping col = "") ∧
    (∀ (required : List String) (rows : List (List (String × String))),
      expand_columns required defaults mapping rows =
        rows.map (fun r => required.map
          (fun c => (c, expandValue r defaults mapping c)))) := by
  refine ⟨?_, ?_, ?_, ?_, fun _ _ => rfl⟩
  · intro v hv
    simp [expandValue, hv]
  · intro hnone src v hsrc hval
    simp [expandValue, hnone, hsrc, hval]
  · intro hnone hrev dv hdv
    rcases hrev with hrev | ⟨src, hsrc, hmiss⟩
    · simp [expandValue, hnone, hrev, hdv]
    · simp [expandValue, hnone, hsrc, hmiss, hdv]
  · intro hnone hrev hdv
    rcases hrev with hrev | ⟨src, hsrc, hmiss⟩
    · simp [expandValue, hnone, hrev, hdv]
    · simp [expandValue, hnone, hsrc, hmiss, hdv]

/-- C9 witness: the four priority levels exercised on a concrete row,
mapping and defaults. -/
theorem expander_priority_witness :
    expandValue [("Date", "d"), ("Start Time", "s")] [("Location", "Arena")]
        [("Start Time", "Time")] "Date" = "d" ∧
    expandValue [("Date", "d"), ("Start Time", "s")] [("Location", "Arena")]
        [("Start Time", "Time")] "Time" = "s" ∧
    expandValue [("Date", "d"), ("Start Time", "s")] [("Location", "Arena")]
        [("Start Time", "Time")] "Location" = "Arena" ∧
    expandValue [("Date", "d"), ("Start Time", "s")] [("Location", "Arena")]
        [("Start Time", "Time")] "Notes" = "" := by
  refine ⟨?_, ?_, ?_, ?_⟩
  · exact (expander_priority _ _ _ "Date").1 "d" (by decide)
  · exact (expander_priority _ _ _ "Time").2.1 (by decide) "Start Time" "s"
      (by decide) (by decide)
  · exact (expander_priority _ _ _ "Location").2.2.1 (by decide)
      (Or.inl (by decide)) "Arena" (by decide)
  · exact (expander_priority _ _ _ "Notes").2.2.2.1 (by decide)
      (Or.inl (by decide)) (by decide)

/-- C10: a group is exported exactly when, if an include list is given,
some component of its key is in it, and, if an exclude list is given, no
component of its key is in it; a key matching both lists is dropped. -/
theorem splitter_filter {α : Type} (includeV excludeV : Option (List String))
    (hinc : includeV ≠ some []) (hexc : excludeV ≠ some [])
    (keys : List String) :
    (should_include includeV excludeV keys = true ↔
      ((∀ l, includeV = some l → ∃ k ∈ keys, k ∈ l) ∧
        (∀ l, excludeV = some l → ∀ k ∈ keys, k ∉ l))) ∧
    (∀ (groups : List (List String × α)) (g : List String × α),
      g ∈ exportedGroups includeV excludeV groups ↔
        g ∈ groups ∧ should_include includeV excludeV g.1 = true) := by
  constructor
  · cases includeV with
    | none =>
      cases excludeV with
      | none => simp [should_include, truthyFilter]
      | some le =>
        have hle : le ≠ [] := fun h => hexc (by rw [h])
        simp [should_include, truthyFilter, hle, List.any_eq_true,
          List.contains, List.elem_iff]
    | some li =>
      have hli : li ≠ [] := fun h => hinc (by rw [h])
      cases excludeV with
      | none =>
        simp [should_include, truthyFilter, hli, List.any_eq_true,
          List.contains, List.elem_iff]
      | some le =>
        have hle : le ≠ [] := fun h => hexc (by rw [h])
        by_cases hin : ∃ k ∈ keys, k ∈ li <;>
          simp [should_include, truthyFilter, hli, hle, List.any_eq_true,
            List.contains, List.elem_iff, hin]
  · intro groups g
    simp [exportedGroups, List.mem_filter]

/-- C10 witness: a key matching both the include and the exclude list is
dropped, and the export filter keeps exactly the accepted groups. -/
theorem splitter_filter_witness :
    (should_include (some ["A"]) (some ["B"]) ["A", "B"] = true ↔
      ((∀ l, (some ["A"] : Option (List String)) = some l →
          ∃ k ∈ ["A", "B"], k ∈ l) ∧
        (∀ l, (some ["B"] : Option (List String)) = some l →
          ∀ k ∈ ["A", "B"], k ∉ l))) ∧
    ((["A", "B"], 1) ∈
        exportedGroups (some ["A"]) (some ["B"]) [((["A", "B"] : List String), 1)] ↔
      (["A", "B"], 1) ∈ [(["A", "B"], 1)] ∧
        should_include (some ["A"]) (some ["B"]) ["A", "B"] = true) :=
  ⟨(splitter_filter (α := Nat) (some ["A"]) (some ["B"]) (by decide) (by decide)
      ["A", "B"]).1,
    (splitter_filter (some ["A"]) (some ["B"]) (by decide) (by decide)
      ["A", "B"]).2 [(["A", "B"], 1)] (["A", "B"], 1)⟩

/-- C6: no entry is ever emitted for a column whose interval cell is
missing or yields no time slot, for a row whose leading date cell is
empty (such rows are also dropped by the row mask from index 3 on), for a
row whose date cell contains "ice" case-insensitively (such a row
contributes zero entries across all columns of its block), or, under the
default omit configuration, for an empty participant cell. -/
theorem no_entry_for_skipped_inputs :
    (∀ (cfg : Config) (ref : RefDate) (pairs : List (Cell × Cell)),
      parseColumn cfg ref none pairs = []) ∧
    (∀ (cfg : Config) (ref : RefDate) (s : String) (pairs : List (Cell × Cell)),
      parse_time_and_duration s = (none, none) →
      parseColumn cfg ref (some s) pairs = []) ∧
    (∀ (cfg : Config) (ref : RefDate) (st dur : String) (tc : Cell),
      parseCell cfg ref st dur none tc = []) ∧
    (∀ (cfg : Config) (ref : RefDate) (st dur ds : String) (tc : Cell),
      containsS (lowerS ds) "ice" = true →
      parseCell cfg ref st dur (some ds) tc = []) ∧
    (∀ (ref : RefDate) (st dur : String) (dc tc : Cell),
      (tc = none ∨ ∃ w, tc = some w ∧ trimS w = "") →
      parseCell defaultConfig ref st dur dc tc = []) ∧
    (∀ (r0 r1 r2 : List Cell) (pre post : Grid) (row : List Cell),
      row.getD 0 none = none →
      applyMask (r0 :: r1 :: r2 :: (pre ++ row :: post)) =
        applyMask (r0 :: r1 :: r2 :: (pre ++ post))) ∧
    (∀ (cfg : Config) (ref : RefDate) (r0 r1 r2 : List Cell) (pre post : Grid)
        (iceRow : List Cell) (s : String) (n : Nat),
      iceRow.getD 0 none = some s → containsS (lowerS s) "ice" = true →
      parse_block cfg ref (r0 :: r1 :: r2 :: (pre ++ iceRow :: post)) n =
        parse_block cfg ref (r0 :: r1 :: r2 :: (pre ++ post)) n) := by
  refine ⟨fun _ _ _ => rfl, ?_, fun _ _ _ _ _ => rfl, ?_, ?_, ?_, ?_⟩
  · intro cfg ref s pairs h
    simp [parseColumn, h]
  · intro cfg ref st dur ds tc h
    simp [parseCell, h]
  · intro ref st dur dc tc h
    have ht : teamTokens defaultConfig tc = [] := by
      rcases h with rfl | ⟨w, rfl, hw⟩
      · rfl
      · simp [teamTokens, hw, defaultConfig]
    cases dc with
    | none => rfl
    | some ds =>
      by_cases hice : containsS (lowerS ds) "ice" = true
      · simp [parseCell, hice]
      · cases hd : parseDateMDY ds with
        | none => simp [parseCell, hice, hd]
        | some t =>
          obtain ⟨y, m, d⟩ := t
          simp [parseCell, hice, hd, ht]
  · intro r0 r1 r2 pre post row h
    simp only [List.getD_eq_getElem?_getD] at h
    simp [applyMask, List.filter_append, List.filter_cons, h]
  · intro cfg ref r0 r1 r2 pre post iceRow s n h0 hice
    unfold parse_block
    apply flatMapL_congr
    intro c _
    have hget : ∀ d : Grid, ((r0 :: r1 :: r2 :: d).getD 2 []) = r2 := fun _ => rfl
    rw [hget, hget, pairs_eq_map, pairs_eq_map, List.map_append, List.map_append,
      List.map_cons]
    refine parseColumn_append_skip cfg ref _ _ _ _ (fun st dur => ?_)
    have h0g : iceRow[0]?.getD none = some s := by
      rw [← List.getD_eq_getElem?_getD]
      exact h0
    simp [parseCell, h0g, hice]

/-- C6 witness: each skip rule exercised at a concrete input, including a
block where the row dated "Ice Time" contributes nothing. -/
theorem no_entry_for_skipped_inputs_witness :
    parseColumn defaultConfig (2025, 9, 2) (some "Time")
      [(some "07/21/2025", some "A")] = [] ∧
    parseCell defaultConfig (2025, 9, 2) "6:00 PM" "1:00" (some "Ice Time")
      (some "A") = [] ∧
    parseCell defaultConfig (2025, 9, 2) "6:00 PM" "1:00" (some "07/21/2025")
      none = [] ∧
    applyMask [[some "a"], [some "b"], [some "c"], [none, some "A"]] =
      applyMask [[some "a"], [some "b"], [some "c"]] ∧
    parse_block defaultConfig (2025, 9, 2)
      [[none, none], [some "Date", none], [none, some "6 pm - 7 pm"],
        [some "Ice Time", some "16U"], [some "7/21/2025", some "16U"]] 2 =
      parse_block defaultConfig (2025, 9, 2)
        [[none, none], [some "Date", none], [none, some "6 pm - 7 pm"],
          [some "7/21/2025", some "16U"]] 2 := by
  refine ⟨?_, ?_, ?_, ?_, ?_⟩
  · exact no_entry_for_skipped_inputs.2.1 defaultConfig (2025, 9, 2) "Time"
      [(some "07/21/2025", some "A")] (by decide)
  · exact no_entry_for_skipped_inputs.2.2.2.1 defaultConfig (2025, 9, 2)
      "6:00 PM" "1:00" "Ice Time" (some "A") (by decide)
  · exact no_entry_for_skipped_inputs.2.2.2.2.1 (2025, 9, 2) "6:00 PM" "1:00"
      (some "07/21/2025") none (Or.inl rfl)
  · exact no_entry_for_skipped_inputs.2.2.2.2.2.1 [some "a"] [some "b"]
      [some "c"] [] [] [none, some "A"] rfl
  · exact no_entry_for_skipped_inputs.2.2.2.2.2.2 defaultConfig (2025, 9, 2)
      [none, none] [some "Date", none] [none, some "6 pm - 7 pm"] []
      [[some "7/21/2025", some "16U"]] [some "Ice Time", some "16U"]
      "Ice Time" 2 rfl (by decide)

/-- C1: the marker scan of parse_schedule matches row-1 cells equal to
"date" after trimming and lower-casing; on a grid whose row 1 holds no
marker the source returns an empty result instead of failing with a
NoBlocksFound error, while a grid with exactly one marker produces
exactly one block spanning the marker column to the grid width. -/
theorem no_marker_silent_empty_result :
    dateColumns [[some "Monday"], [some "Day", some "Time"],
      [none, some "6 pm - 7 pm"], [some "7/21/2025", some "16U"]] = [] ∧
    parse_schedule defaultConfig (2025, 9, 2)
      [[some "Monday"], [some "Day", some "Time"],
        [none, some "6 pm - 7 pm"], [some "7/21/2025", some "16U"]] = [] ∧
    dateColumns [[none, none, none, none], [none, some " Date ", none, none],
      [none, none, some "6 pm - 7 pm", none],
      [none, some "7/21/2025", some "16U", none]] = [1] ∧
    gridWidth [[none, none, none, none], [none, some " Date ", none, none],
      [none, none, some "6 pm - 7 pm", none],
      [none, some "7/21/2025", some "16U", none]] = 4 ∧
    blockRanges [1] 4 = [(1, 4)] := by
  decide

/-- C2 counterexample: on a one-block grid whose two data columns carry
intervals starting at 10 am and at 9 am on the same date, the source
emits the 10:00 AM entry before the 9:00 AM entry, because the final sort
compares Start Time as a display string; the parsed time values (600 and
540 minutes) are not in ascending order in the output. -/
theorem sort_by_display_string_counterexample :
    ((parse_schedule defaultConfig (2025, 9, 2)
        [[none, none, none], [some "Date", none, none],
          [none, some "10 am - 11 am", some "9 am - 10 am"],
          [some "7/21/2025", some "A", some "B"]]).map
      (fun p => p.2.startTime)) = ["10:00 AM", "9:00 AM"] ∧
    ((parse_schedule defaultConfig (2025, 9, 2)
        [[none, none, none], [some "Date", none, none],
          [none, some "10 am - 11 am", some "9 am - 10 am"],
          [some "7/21/2025", some "A", some "B"]]).map
      (fun p => p.2.date)) = ["07/21/2025", "07/21/2025"] ∧
    parseHalf (lowerS (trimS "10:00 AM")) = some 600 ∧
    parseHalf (lowerS (trimS "9:00 AM")) = some 540 ∧
    ¬(600 : Nat) ≤ 540 := by
  decide

/-- C2 amended: the concatenated entries are stably sorted by the parsed
Date value first and the Start Time display string second (not the parsed
time value), ties keeping their original emission order, and the Index
column is exactly the dense zero-based rank in this order. -/
theorem merge_sort_stable_rank (cfg : Config) (ref : RefDate) (g : Grid) :
    List.Sorted entryLe ((parse_schedule cfg ref g).map Prod.snd) ∧
    ((parse_schedule cfg ref g).map Prod.snd).Perm (collectEntries cfg ref g) ∧
    (∀ a b : ScheduleEntry, entryLe a b →
      [a, b].Sublist (collectEntries cfg ref g) →
      [a, b].Sublist ((parse_schedule cfg ref g).map Prod.snd)) ∧
    (parse_schedule cfg ref g).map Prod.fst =
      List.range (parse_schedule cfg ref g).length := by
  have hmap : (parse_schedule cfg ref g).map Prod.snd =
      (collectEntries cfg ref g).insertionSort entryLe := by
    unfold parse_schedule
    exact List.map_snd_zip _ _ (by simp)
  have hfst : (parse_schedule cfg ref g).map Prod.fst =
      List.range ((collectEntries cfg ref g).insertionSort entryLe).length := by
    unfold parse_schedule
    exact List.map_fst_zip _ _ (by simp)
  have hlen : (parse_schedule cfg ref g).length =
      ((collectEntries cfg ref g).insertionSort entryLe).length := by
    unfold parse_schedule
    simp
  refine ⟨?_, ?_, ?_, ?_⟩
  · rw [hmap]
    exact List.sorted_insertionSort entryLe _
  · rw [hmap]
    exact List.perm_insertionSort entryLe _
  · intro a b hab hsub
    rw [hmap]
    exact List.pair_sublist_insertionSort hab hsub
  · rw [hfst, hlen]

/-- C2 witness: the stable sort properties at a concrete one-block grid
whose participant cell fans out into two equal-key entries that keep
their emission order. -/
theorem merge_sort_stable_rank_witness :
    List.Sorted entryLe ((parse_schedule defaultConfig (2025, 9, 2)
      [[none, none], [some "Date", none], [none, some "6 pm - 7 pm"],
        [some "7/21/2025", some "A / B"]]).map Prod.snd) ∧
    [{ week := -7, day := "Monday", date := "07/21/2025",
        startTime := "6:00 PM", duration := "1:00", team := "A" },
      { week := -7, day := "Monday", date := "07/21/2025",
        startTime := "6:00 PM", duration := "1:00", team := "B" }].Sublist
      ((parse_schedule defaultConfig (2025, 9, 2)
        [[none, none], [some "Date", none], [none, some "6 pm - 7 pm"],
          [some "7/21/2025", some "A / B"]]).map Prod.snd) ∧
    (parse_schedule defaultConfig (2025, 9, 2)
        [[none, none], [some "Date", none], [none, some "6 pm - 7 pm"],
          [some "7/21/2025", some "A / B"]]).map Prod.fst =
      List.range (parse_schedule defaultConfig (2025, 9, 2)
        [[none, none], [some "Date", none], [none, some "6 pm - 7 pm"],
          [some "7/21/2025", some "A / B"]]).length := by
  have h := merge_sort_stable_rank defaultConfig (2025, 9, 2)
    [[none, none], [some "Date", none], [none, some "6 pm - 7 pm"],
      [some "7/21/2025", some "A / B"]]
  exact ⟨h.1, h.2.2.1 _ _ (by decide) (by decide), h.2.2.2⟩

end ScheduleTools
